import Mathlib

/-!
Verification of the mdbload load-generation engine against its design
specification.  The definitions below are a shallow embedding of the Go
source: pkg/mongo/load.go (insert/read operations and the writer/reader
worker routines), the in-process queue (MemoryQueue) and the distributed
queue (RedisQueue) from pkg/queue, and the document source loop
(updateDocument) from the cmd package.  Prometheus counters are modelled
as natural numbers, the shared queue-size gauge as an integer, time in
whole seconds as natural numbers, and external effects (the mongo driver,
json serialization, redis transport) as explicit outcome parameters.
-/

/-- Document identifier returned by the mongo driver; only its hex string
representation matters to this program (ObjectIDToString calls oid.Hex()). -/
structure ObjectID where
  hex : String
deriving DecidableEq, Repr

/-- Embedding of ObjectIDToString from pkg/mongo/load.go: converts an
ObjectID to the string form of its hex value. -/
def ObjectIDToString (oid : ObjectID) : String := oid.hex

/-- Embedding of ObjectIDsToString from pkg/mongo/load.go: converts a list
of ObjectIDs to their string representations. -/
def ObjectIDsToString (oids : List ObjectID) : List String :=
  oids.map ObjectIDToString

/-- Prometheus counters touched by the mongo operations in
pkg/mongo/load.go: documentCounter (documents_total), and the
operationFailure counter vector split into its insert and read labels.
Counters only ever increase, so they are natural numbers. -/
structure Metrics where
  documentsTotal : Nat
  insertFailures : Nat
  readFailures : Nat
deriving DecidableEq, Repr

/-- Counters start at zero (registerPrometheusMetrics adds 0 to both
failure labels, leaving them at zero). -/
def initialMetrics : Metrics := ⟨0, 0, 0⟩

/-- Embedding of MongoLoad.InsertDocument from pkg/mongo/load.go.  The
driver call collection.InsertOne is external; its outcome is the
parameter: some oid on success, none on error.  The function first
increments documentCounter, then on error increments the insert failure
counter by one and returns an empty id with false; on success it returns
the hex string of the inserted id with true. -/
def InsertDocument (st : Metrics) (outcome : Option ObjectID) :
    Metrics × String × Bool :=
  let st1 : Metrics := { st with documentsTotal := st.documentsTotal + 1 }
  match outcome with
  | none => ({ st1 with insertFailures := st1.insertFailures + 1 }, "", false)
  | some oid => (st1, ObjectIDToString oid, true)

/-- Embedding of MongoLoad.InsertDocuments from pkg/mongo/load.go.  The
driver call collection.InsertMany is external; its outcome is the
parameter.  documentCounter is increased by the batch length up front; on
error the insert failure counter is increased by the batch length (the Go
code adds float64(len(documents))) and nil is returned; on success the
inserted ids are returned as hex strings. -/
def InsertDocuments (st : Metrics) (documents : List String)
    (outcome : Option (List ObjectID)) : Metrics × Option (List String) :=
  let st1 : Metrics := { st with documentsTotal := st.documentsTotal + documents.length }
  match outcome with
  | none => ({ st1 with insertFailures := st1.insertFailures + documents.length }, none)
  | some ids => (st1, some (ObjectIDsToString ids))

/-- QueueItem stored by a writer after a successful insert, from
pkg/mongo/load.go (type MongoDocument). -/
structure MongoDocument where
  Id : String
  Hostname : String
  Timestamp : Int
deriving DecidableEq, Repr

/-- Body of one iteration of MongoLoad.InsertOneRoutine from
pkg/mongo/load.go: call InsertDocument on the held document; if it failed,
continue without enqueueing; if it succeeded, append a MongoDocument with
the returned id, the hostname and the current time to the queue.  The
state is the metrics together with the queue contents. -/
def InsertOneRoutineStep (hostname : String) (now : Int)
    (st : Metrics × List MongoDocument) (outcome : Option ObjectID) :
    Metrics × List MongoDocument :=
  match InsertDocument st.1 outcome with
  | (m1, _, false) => (m1, st.2)
  | (m1, id, true) => (m1, st.2 ++ [⟨id, hostname, now⟩])

/-- Run of the InsertOneRoutine loop over a sequence of iterations; each
event is the driver outcome of that insert attempt paired with the
wall-clock time of the iteration.  The queue starts empty. -/
def InsertOneRoutineRun (hostname : String)
    (events : List (Option ObjectID × Int)) : Metrics × List MongoDocument :=
  events.foldl (fun st e => InsertOneRoutineStep hostname e.2 st e.1)
    (initialMetrics, [])

/-- Identifiers produced by the successful inserts of a run, in order. -/
def successIds (events : List (Option ObjectID × Int)) : List String :=
  events.filterMap (fun e => e.1.map ObjectIDToString)

/-- Inner wait loop of MongoLoad.ReadOneRoutine from pkg/mongo/load.go:
poll the queue (Dequeue) once per second until an item appears.  The
oracle gives the value Dequeue returns at the k-th poll; fuel bounds how
many polls we observe.  The loop itself has no other exit: in the source
it contains only the nil check and a one second sleep, and the test
duration timer is created only after this loop finishes.  Returns the
poll index and item of the first successful poll, or none if the loop is
still running after the given number of polls. -/
def readWaitLoop (oracle : Nat → Option MongoDocument) :
    Nat → Nat → Option (Nat × MongoDocument)
  | 0, _ => none
  | fuel + 1, k =>
    match oracle k with
    | some item => some (k, item)
    | none => readWaitLoop oracle fuel (k + 1)

/-- Wait phase of ReadOneRoutine: a first Dequeue at poll 0, then the
inner wait loop from poll 1 on, exactly as in the source. -/
def ReadOneRoutineWait (oracle : Nat → Option MongoDocument) (fuel : Nat) :
    Option (Nat × MongoDocument) :=
  match oracle 0 with
  | some item => some (0, item)
  | none => readWaitLoop oracle fuel 1

/-- Deadline a reader observes.  In ReadOneRoutine the statement
timeout := time.After(m.options.TestDuration) runs only after the wait
phase has produced a first item, so the reader's timer fires at
start + firstItemPoll + duration (one second per empty poll).  If the
wait phase never finishes, no timer is ever armed. -/
def readerObservedDeadline (oracle : Nat → Option MongoDocument)
    (fuel start duration : Nat) : Option Nat :=
  (ReadOneRoutineWait oracle fuel).map (fun r => start + r.1 + duration)

/-- Deadline a writer observes.  In InsertOneRoutine the statement
timeout := time.After(m.options.TestDuration) runs at routine entry,
before the first document is received, so the writer's timer fires at
its start time plus the test duration. -/
def writerObservedDeadline (start duration : Nat) : Nat := start + duration

/-- Queue oracle that never yields an item: models the scenario of an
engine with zero writers, whose queue stays empty forever. -/
def emptyQueueOracle : Nat → Option MongoDocument := fun _ => none

/-- Queue oracle whose first item arrives only at poll 10. -/
def lateOracle : Nat → Option MongoDocument :=
  fun k => if k = 10 then some ⟨"a", "h", 0⟩ else none

/-- Select cases of the updateDocument loop (the Document Source) from
the cmd package: receive on the done channel (the shutdown signal), send
documents[0] into the bounded document channel, or the default branch
when neither fires. -/
inductive UpdateEvent where
  | done
  | send
  | idle
deriving DecidableEq, Repr

/-- Loop of updateDocument (the Document Source) from the cmd package:
for each iteration the Go select fires one ready case.  Receiving on the
done channel returns immediately; the send case (which in the source
sends documents[0] and can only fire while the bounded channel has room)
appends the document to the channel; the default case does nothing.  The
result is whether the loop returned within the observed events, together
with the final channel contents. -/
def updateDocumentRun (doc0 : String) (cap : Nat) :
    List UpdateEvent → List String → Bool × List String
  | [], chan => (false, chan)
  | UpdateEvent.done :: _, chan => (true, chan)
  | UpdateEvent.send :: es, chan =>
    if chan.length < cap then updateDocumentRun doc0 cap es (chan ++ [doc0])
    else updateDocumentRun doc0 cap es chan
  | UpdateEvent.idle :: es, chan => updateDocumentRun doc0 cap es chan

/-- In-process queue from the queue package (type MemoryQueue backed by a
lane.Queue, a FIFO list with its head at the front), together with the
shared queue-size gauge metric (items_queued) that Enqueue increments and
Dequeue decrements.  The gauge is an integer because a Prometheus gauge
can go negative. -/
structure MemoryQueue (α : Type) where
  queue : List α
  gauge : Int
deriving DecidableEq, Repr

/-- Embedding of MemoryQueue.Enqueue: append the item at the tail and
increment the queue-size gauge. -/
def MemoryQueue.Enqueue {α : Type} (q : MemoryQueue α) (item : α) :
    MemoryQueue α :=
  ⟨q.queue ++ [item], q.gauge + 1⟩

/-- Embedding of MemoryQueue.Dequeue: remove and return the head item, or
the nil sentinel (none) when the queue is empty.  The source decrements
the queue-size gauge unconditionally, also when the backing lane queue
returned nil. -/
def MemoryQueue.Dequeue {α : Type} (q : MemoryQueue α) :
    Option α × MemoryQueue α :=
  match q.queue with
  | [] => (none, ⟨[], q.gauge - 1⟩)
  | x :: rest => (some x, ⟨rest, q.gauge - 1⟩)

/-- Embedding of MemoryQueue.Head: the head item without removal and
without touching any counter. -/
def MemoryQueue.Head {α : Type} (q : MemoryQueue α) : Option α :=
  q.queue.head?

/-- Embedding of MemoryQueue.Size: the length of the backing lane queue. -/
def MemoryQueue.Size {α : Type} (q : MemoryQueue α) : Nat :=
  q.queue.length

/-- Embedding of MemoryQueue.Empty: true when Size is zero. -/
def MemoryQueue.Empty {α : Type} (q : MemoryQueue α) : Bool :=
  MemoryQueue.Size q == 0

/-- Fresh in-process queue with the gauge at its initial value. -/
def emptyQueue (α : Type) : MemoryQueue α := ⟨[], 0⟩

/-- One operation of a sequential trace against the in-process queue. -/
inductive MemOp (α : Type) where
  | enq (item : α)
  | deq
deriving DecidableEq, Repr

/-- Sequential execution of a trace of queue operations, returning the
final queue state and the number of successful dequeues (those that
returned an item rather than the nil sentinel). -/
def memRun {α : Type} : List (MemOp α) → MemoryQueue α → MemoryQueue α × Nat
  | [], q => (q, 0)
  | MemOp.enq a :: ops, q => memRun ops (MemoryQueue.Enqueue q a)
  | MemOp.deq :: ops, q =>
    match MemoryQueue.Dequeue q with
    | (none, q1) => memRun ops q1
    | (some _, q1) =>
      let r := memRun ops q1
      (r.1, r.2 + 1)

/-- Number of Enqueue calls in a trace. -/
def countEnq {α : Type} (ops : List (MemOp α)) : Nat :=
  (ops.filter (fun op => match op with | MemOp.enq _ => true | MemOp.deq => false)).length

/-- Number of Dequeue calls in a trace, successful or not. -/
def countDeq {α : Type} (ops : List (MemOp α)) : Nat :=
  (ops.filter (fun op => match op with | MemOp.enq _ => false | MemOp.deq => true)).length

/-- Distributed queue from the queue package (type RedisQueue): the redis
list behind the key, the shared queue-size gauge, and the queue error
counter split by operation label. -/
structure RedisQueue where
  list : List String
  sizeGauge : Int
  enqueueErrors : Nat
  dequeueErrors : Nat
deriving DecidableEq, Repr

/-- Embedding of RedisQueue.Enqueue.  json.Marshal and the RPush call are
external: the serialized parameter is some s when marshalling produced s
and none on a marshal error; transportOk is false when RPush returned an
error.  On a marshal error the enqueue error counter is incremented and
the function returns at once; on a transport error it likewise increments
the error counter and returns; only on success is the serialized item
appended and the size gauge incremented.  The function is total: no
failure is propagated to the caller. -/
def RedisQueue.Enqueue (q : RedisQueue) (serialized : Option String)
    (transportOk : Bool) : RedisQueue :=
  match serialized with
  | none => { q with enqueueErrors := q.enqueueErrors + 1 }
  | some s =>
    if transportOk then
      { q with list := q.list ++ [s], sizeGauge := q.sizeGauge + 1 }
    else
      { q with enqueueErrors := q.enqueueErrors + 1 }

theorem insertOneRoutineStep_none (hostname : String) (now : Int)
    (m : Metrics) (q : List MongoDocument) :
    InsertOneRoutineStep hostname now (m, q) none =
      ({ m with documentsTotal := m.documentsTotal + 1,
                insertFailures := m.insertFailures + 1 }, q) := rfl

theorem insertOneRoutineStep_some (hostname : String) (now : Int)
    (m : Metrics) (q : List MongoDocument) (oid : ObjectID) :
    InsertOneRoutineStep hostname now (m, q) (some oid) =
      ({ m with documentsTotal := m.documentsTotal + 1 },
        q ++ [⟨ObjectIDToString oid, hostname, now⟩]) := rfl

theorem successIds_cons_none (now : Int) (events : List (Option ObjectID × Int)) :
    successIds ((none, now) :: events) = successIds events := by
  simp [successIds]

theorem successIds_cons_some (oid : ObjectID) (now : Int)
    (events : List (Option ObjectID × Int)) :
    successIds ((some oid, now) :: events) =
      ObjectIDToString oid :: successIds events := by
  simp [successIds]

theorem insertRun_mem_aux (hostname : String) (item : MongoDocument) :
    ∀ (events : List (Option ObjectID × Int)) (m : Metrics) (q : List MongoDocument),
      item ∈ (events.foldl (fun st e => InsertOneRoutineStep hostname e.2 st e.1) (m, q)).2 →
      item ∈ q ∨ item.Id ∈ successIds events := by
  intro events
  induction events with
  | nil =>
    intro m q h
    exact Or.inl h
  | cons e es ih =>
    intro m q h
    rcases e with ⟨outcome, now⟩
    cases outcome with
    | none =>
      rw [List.foldl_cons] at h
      simp only [insertOneRoutineStep_none] at h
      rcases ih _ _ h with hq | hs
      · exact Or.inl hq
      · right
        rw [successIds_cons_none]
        exact hs
    | some oid =>
      rw [List.foldl_cons] at h
      simp only [insertOneRoutineStep_some] at h
      rcases ih _ _ h with hq | hs
      · rcases List.mem_append.mp hq with h1 | h2
        · exact Or.inl h1
        · right
          rw [successIds_cons_some]
          rcases List.mem_singleton.mp h2 with rfl
          exact List.mem_cons_self _ _
      · right
        rw [successIds_cons_some]
        exact List.mem_cons_of_mem _ hs

/-- Claim C1: in the writer loop (InsertOneRoutine) a QueueItem
(MongoDocument) is enqueued only after its insert returned success: every
item the queue ever holds carries an identifier produced by a prior
successful insert of the run, and an iteration whose insert failed leaves
the queue unchanged. -/
theorem insertOneRoutine_enqueues_only_successful_inserts
    (hostname : String) (events : List (Option ObjectID × Int))
    (item : MongoDocument)
    (hmem : item ∈ (InsertOneRoutineRun hostname events).2) :
    item.Id ∈ successIds events ∧
      ∀ (now : Int) (m : Metrics) (q : List MongoDocument),
        (InsertOneRoutineStep hostname now (m, q) none).2 = q := by
  constructor
  · rcases insertRun_mem_aux hostname item events initialMetrics [] hmem with h | h
    · simp at h
    · exact h
  · intro now m q
    rfl

/-- Witness for C1 at a concrete run: one successful insert with id a,
then one failed insert; the single queued item carries id a, which is
among the successful identifiers. -/
theorem insertOneRoutine_enqueues_only_successful_inserts_witness :
    (⟨"a", "h", 0⟩ : MongoDocument) ∈
        (InsertOneRoutineRun "h" [(some ⟨"a"⟩, 0), (none, 1)]).2 ∧
      ("a" : String) ∈ successIds [(some ⟨"a"⟩, 0), (none, 1)] :=
  ⟨by decide,
    (insertOneRoutine_enqueues_only_successful_inserts "h"
      [(some ⟨"a"⟩, 0), (none, 1)] ⟨"a", "h", 0⟩ (by decide)).1⟩

/-- Claim C5 counterexample: a failed batch insert of two documents
increments the insert failure counter by two, not by exactly one. -/
theorem insertDocuments_batch_failure_counter_counterexample :
    ¬ ((InsertDocuments initialMetrics ["docA", "docB"] none).1.insertFailures =
        initialMetrics.insertFailures + 1) := by decide

/-- Claim C5 as amended: a failed single-document insert increments the
insert failure counter by exactly one and reports failure; a failed batch
insert increments it by the batch length and returns no identifiers; a
writer iteration whose insert failed enqueues nothing. -/
theorem insert_failure_counter_increments (st : Metrics)
    (documents : List String) (hostname : String) (now : Int)
    (m : Metrics) (q : List MongoDocument) :
    (InsertDocument st none).1.insertFailures = st.insertFailures + 1 ∧
      (InsertDocument st none).2.2 = false ∧
      (InsertDocuments st documents none).1.insertFailures =
        st.insertFailures + documents.length ∧
      (InsertDocuments st documents none).2 = none ∧
      (InsertOneRoutineStep hostname now (m, q) none).2 = q :=
  ⟨rfl, rfl, rfl, rfl, rfl⟩

/-- Claim C9: the total document counter is incremented by the actual
document count of each insert attempt: by one for a single-document
insert and by the batch length for a batch insert, whatever the driver
outcome. -/
theorem insert_document_counter_increments_by_count (st : Metrics)
    (outcome : Option ObjectID) (documents : List String)
    (outcomes : Option (List ObjectID)) :
    (InsertDocument st outcome).1.documentsTotal = st.documentsTotal + 1 ∧
      (InsertDocuments st documents outcomes).1.documentsTotal =
        st.documentsTotal + documents.length := by
  constructor
  · cases outcome <;> rfl
  · cases outcomes <;> rfl

theorem readWaitLoop_empty (fuel : Nat) :
    ∀ k, readWaitLoop emptyQueueOracle fuel k = none := by
  induction fuel with
  | zero => intro k; rfl
  | succ n ih =>
    intro k
    simpa [readWaitLoop, emptyQueueOracle] using ih (k + 1)

/-- Claim C2 (code bug): against a queue that stays empty, the reader
task never leaves its initial wait phase no matter how many polls
elapse: the wait loop keeps returning nothing, and because the test
duration timer is only armed once the wait phase produced a first item,
no deadline is ever observed, so ReadOneRoutine never returns at the
deadline (it does perform zero read operations, since every read happens
after the wait phase). -/
theorem readOneRoutine_wait_spins_forever_on_empty_queue (fuel k much : Nat) :
    readWaitLoop emptyQueueOracle fuel k = none ∧
      ReadOneRoutineWait emptyQueueOracle fuel = none ∧
      readerObservedDeadline emptyQueueOracle fuel 0 much = none := by
  refine ⟨readWaitLoop_empty fuel k, ?_, ?_⟩
  · simpa [ReadOneRoutineWait, emptyQueueOracle] using readWaitLoop_empty fuel 1
  · simp only [readerObservedDeadline]
    rw [show ReadOneRoutineWait emptyQueueOracle fuel = none from by
      simpa [ReadOneRoutineWait, emptyQueueOracle] using readWaitLoop_empty fuel 1]
    rfl

/-- Claim C3: when the Document Source loop (updateDocument) receives the
shutdown signal — the done branch of its select fires — it returns within
that very iteration, for any channel contents and channel capacity, and
without delivering the in-flight document; in particular with three
documents still buffered in a channel of capacity ten. -/
theorem updateDocument_stops_on_shutdown_signal (doc0 : String) (cap : Nat)
    (es : List UpdateEvent) (chan : List String) :
    updateDocumentRun doc0 cap (UpdateEvent.done :: es) chan = (true, chan) ∧
      updateDocumentRun doc0 10 (UpdateEvent.done :: es)
        [doc0, doc0, doc0] = (true, [doc0, doc0, doc0]) :=
  ⟨rfl, rfl⟩

/-- Claim C4 counterexample: with the engine started at time 0 and a test
duration of 30, a writer's timer fires at 30, but a reader whose first
queue item arrives at poll 10 arms its timer only then and observes
deadline 40: the workers do not observe one shared deadline value and the
reader's stop time exceeds start + testDuration. -/
theorem worker_deadlines_not_shared_counterexample :
    writerObservedDeadline 0 30 = 30 ∧
      readerObservedDeadline lateOracle 20 0 30 = some 40 ∧
      ¬ (readerObservedDeadline lateOracle 20 0 30 =
          some (writerObservedDeadline 0 30)) ∧
      ¬ (40 ≤ writerObservedDeadline 0 30) := by decide

/-- Claim C4 as amended: each worker observes its own deadline computed
at the point its timer is armed plus the test duration.  A writer arms at
routine start, so its deadline is start + duration; a reader arms only
after its wait phase obtained a first item at poll k, so its deadline is
start + k + duration, which is never below the writer's and exceeds it by
the reader's initial wait. -/
theorem worker_deadlines_armed_locally (t0 dur fuel k : Nat)
    (oracle : Nat → Option MongoDocument) (item : MongoDocument)
    (h : ReadOneRoutineWait oracle fuel = some (k, item)) :
    readerObservedDeadline oracle fuel t0 dur = some (t0 + k + dur) ∧
      writerObservedDeadline t0 dur = t0 + dur ∧
      writerObservedDeadline t0 dur ≤ t0 + k + dur := by
  refine ⟨?_, rfl, by unfold writerObservedDeadline; omega⟩
  simp [readerObservedDeadline, h]

/-- Witness for the amended C4 at the concrete late-arriving oracle: the
reader's first item arrives at poll 10, its deadline is 40 while the
writer's is 30. -/
theorem worker_deadlines_armed_locally_witness :
    readerObservedDeadline lateOracle 20 0 30 = some (0 + 10 + 30) ∧
      writerObservedDeadline 0 30 = 0 + 30 ∧
      writerObservedDeadline 0 30 ≤ 0 + 10 + 30 :=
  worker_deadlines_armed_locally 0 30 20 10 lateOracle ⟨"a", "h", 0⟩ (by decide)

theorem countEnq_cons_enq {α : Type} (a : α) (ops : List (MemOp α)) :
    countEnq (MemOp.enq a :: ops) = countEnq ops + 1 := by
  simp [countEnq]

theorem countEnq_cons_deq {α : Type} (ops : List (MemOp α)) :
    countEnq (MemOp.deq :: ops) = countEnq ops := by
  simp [countEnq]

theorem countDeq_cons_enq {α : Type} (a : α) (ops : List (MemOp α)) :
    countDeq (MemOp.enq a :: ops) = countDeq ops := by
  simp [countDeq]

theorem countDeq_cons_deq {α : Type} (ops : List (MemOp α)) :
    countDeq (MemOp.deq :: ops) = countDeq ops + 1 := by
  simp [countDeq]

theorem memRun_size_aux {α : Type} :
    ∀ (ops : List (MemOp α)) (qs : List α) (g : Int),
      MemoryQueue.Size (memRun ops ⟨qs, g⟩).1 + (memRun ops ⟨qs, g⟩).2 =
        qs.length + countEnq ops := by
  intro ops
  induction ops with
  | nil =>
    intro qs g
    simp [memRun, MemoryQueue.Size, countEnq]
  | cons op ops ih =>
    intro qs g
    cases op with
    | enq a =>
      have h := ih (qs ++ [a]) (g + 1)
      simp only [memRun, MemoryQueue.Enqueue]
      rw [h, countEnq_cons_enq, List.length_append]
      simp
      omega
    | deq =>
      cases qs with
      | nil =>
        have h := ih [] (g - 1)
        simp only [memRun, MemoryQueue.Dequeue]
        rw [h, countEnq_cons_deq]
      | cons x rest =>
        have h := ih rest (g - 1)
        simp only [memRun, MemoryQueue.Dequeue]
        rw [countEnq_cons_deq, List.length_cons]
        omega

theorem memRun_gauge_aux {α : Type} :
    ∀ (ops : List (MemOp α)) (qs : List α) (g : Int),
      (memRun ops ⟨qs, g⟩).1.gauge = g + countEnq ops - countDeq ops := by
  intro ops
  induction ops with
  | nil =>
    intro qs g
    simp [memRun, countEnq, countDeq]
  | cons op ops ih =>
    intro qs g
    cases op with
    | enq a =>
      have h := ih (qs ++ [a]) (g + 1)
      simp only [memRun, MemoryQueue.Enqueue]
      rw [h, countEnq_cons_enq, countDeq_cons_enq]
      push_cast
      omega
    | deq =>
      cases qs with
      | nil =>
        have h := ih [] (g - 1)
        simp only [memRun, MemoryQueue.Dequeue]
        rw [h, countEnq_cons_deq, countDeq_cons_deq]
        push_cast
        omega
      | cons x rest =>
        have h := ih rest (g - 1)
        simp only [memRun, MemoryQueue.Dequeue]
        rw [countEnq_cons_deq, countDeq_cons_deq]
        push_cast
        push_cast at h
        omega

/-- Claim C6: for the in-process queue under sequential execution, after
a trace containing N enqueues and M successful dequeues with M ≤ N
(starting from the fresh queue), Size() returns N - M, and Empty()
returns true exactly when N = M. -/
theorem memoryQueue_size_after_enqueues_dequeues {α : Type}
    (ops : List (MemOp α))
    (h : (memRun ops (emptyQueue α)).2 ≤ countEnq ops) :
    MemoryQueue.Size (memRun ops (emptyQueue α)).1 =
        countEnq ops - (memRun ops (emptyQueue α)).2 ∧
      (MemoryQueue.Empty (memRun ops (emptyQueue α)).1 = true ↔
        countEnq ops = (memRun ops (emptyQueue α)).2) := by
  have hs := memRun_size_aux ops ([] : List α) 0
  simp only [List.length_nil, Nat.zero_add] at hs
  simp only [emptyQueue] at h ⊢
  constructor
  · omega
  · simp only [MemoryQueue.Empty, beq_iff_eq]
    omega

/-- Witness for C6: two enqueues followed by one successful dequeue give
Size two minus one. -/
theorem memoryQueue_size_after_enqueues_dequeues_witness :
    (memRun [MemOp.enq "a", MemOp.enq "b", MemOp.deq] (emptyQueue String)).2 ≤
        countEnq [MemOp.enq "a", MemOp.enq "b", MemOp.deq] ∧
      MemoryQueue.Size
          (memRun [MemOp.enq "a", MemOp.enq "b", MemOp.deq] (emptyQueue String)).1 =
        countEnq [MemOp.enq "a", MemOp.enq "b", MemOp.deq] -
          (memRun [MemOp.enq "a", MemOp.enq "b", MemOp.deq] (emptyQueue String)).2 :=
  ⟨by decide,
    (memoryQueue_size_after_enqueues_dequeues
      [MemOp.enq "a", MemOp.enq "b", MemOp.deq] (by decide)).1⟩

/-- Claim C7: enqueueing a document on an empty in-process queue and
immediately dequeuing returns the very same value (the pipeline passes
the item through untouched, so the result is byte-identical to the
original). -/
theorem memoryQueue_roundtrip_identity {α : Type} (q : MemoryQueue α)
    (d : α) (h : MemoryQueue.Empty q = true) :
    (MemoryQueue.Dequeue (MemoryQueue.Enqueue q d)).1 = some d := by
  rcases q with ⟨qs, g⟩
  cases qs with
  | nil => rfl
  | cons x rest => simp [MemoryQueue.Empty, MemoryQueue.Size] at h

/-- Witness for C7 on the fresh queue with a concrete document. -/
theorem memoryQueue_roundtrip_identity_witness :
    MemoryQueue.Empty (emptyQueue String) = true ∧
      (MemoryQueue.Dequeue
        (MemoryQueue.Enqueue (emptyQueue String) "doc")).1 = some "doc" :=
  ⟨rfl, memoryQueue_roundtrip_identity (emptyQueue String) "doc" rfl⟩

/-- Claim C10: dequeuing the in-process queue always decrements the
shared queue-size gauge, also when the queue was empty and the nil
sentinel is returned, so after any trace the gauge reads enqueues minus
all dequeue calls (possibly negative, as after two dequeues of the fresh
queue), while Size() stays at the true element count. -/
theorem memoryQueue_gauge_counts_all_dequeues :
    (∀ (ops : List (MemOp String)),
        (memRun ops (emptyQueue String)).1.gauge =
          (countEnq ops : Int) - countDeq ops) ∧
      (MemoryQueue.Dequeue (emptyQueue String)).1 = none ∧
      (MemoryQueue.Dequeue (emptyQueue String)).2.gauge = -1 ∧
      MemoryQueue.Size (MemoryQueue.Dequeue (emptyQueue String)).2 = 0 ∧
      (memRun [MemOp.deq, MemOp.deq] (emptyQueue String)).1.gauge = -2 ∧
      MemoryQueue.Size (memRun [MemOp.deq, MemOp.deq] (emptyQueue String)).1 = 0 := by
  refine ⟨?_, by decide, by decide, by decide, by decide, by decide⟩
  intro ops
  have h := memRun_gauge_aux ops ([] : List String) 0
  simp only [emptyQueue]
  omega

/-- Claim C8: on the distributed queue, an Enqueue that hits a
serialization failure or a transport failure increments the enqueue
error counter by one, appends nothing to the backing list, and leaves
the size gauge untouched; the failure is not propagated (Enqueue is a
total function of the state). -/
theorem redisQueue_enqueue_failure_drops_item (q : RedisQueue)
    (serialized : Option String) (transportOk : Bool)
    (h : serialized = none ∨ transportOk = false) :
    (RedisQueue.Enqueue q serialized transportOk).enqueueErrors =
        q.enqueueErrors + 1 ∧
      (RedisQueue.Enqueue q serialized transportOk).list = q.list ∧
      (RedisQueue.Enqueue q serialized transportOk).sizeGauge = q.sizeGauge := by
  rcases h with h | h
  · subst h
    exact ⟨rfl, rfl, rfl⟩
  · subst h
    cases serialized with
    | none => exact ⟨rfl, rfl, rfl⟩
    | some s => exact ⟨rfl, rfl, rfl⟩

/-- Witness for C8 at a marshal failure on the fresh distributed queue. -/
theorem redisQueue_enqueue_failure_drops_item_witness :
    ((none : Option String) = none ∨ (true : Bool) = false) ∧
      (RedisQueue.Enqueue ⟨[], 0, 0, 0⟩ none true).enqueueErrors = 0 + 1 ∧
      (RedisQueue.Enqueue ⟨[], 0, 0, 0⟩ none true).list = [] ∧
      (RedisQueue.Enqueue ⟨[], 0, 0, 0⟩ none true).sizeGauge = 0 :=
  ⟨Or.inl rfl,
    (redisQueue_enqueue_failure_drops_item ⟨[], 0, 0, 0⟩ none true (Or.inl rfl)).1,
    (redisQueue_enqueue_failure_drops_item ⟨[], 0, 0, 0⟩ none true (Or.inl rfl)).2.1,
    (redisQueue_enqueue_failure_drops_item ⟨[], 0, 0, 0⟩ none true (Or.inl rfl)).2.2⟩
